import Mathlib

/-!
Shallow embedding of the workout-tracker sync core.

Source files embedded here:
* `github.js` — remote file-store client (`setToken`, `getFile`, `commitFile`);
  the module-level `authToken` and the `if (!authToken) throw` guards are
  modelled explicitly, together with a `guardHit` flag recording whether a
  guard ever fired.
* `src/unnamed/part_000` — the credential-gated coordinator ("mode A"):
  `initWorkoutData`, `saveWorkoutData`, `retryPendingSaves`,
  `addPendingSave`, `getPendingSaves`, `clearPendingSaves`, `getSyncStatus`.
* `workoutData.js` — the public-read coordinator ("mode B").

JSON values that flow through the coordinator are modelled by `DataVal`:
either a workout document or a pending-save wrapper object `{data, timestamp}`
(the latter arises because `retryPendingSaves` passes the queue entry itself
to `saveWorkoutData`).  `localStorage` slots hold either a well-formed
serialized value or a corrupt string; `JSON.parse` of a corrupt string
throws, modelled by `Except.error Exc.jsonParse`.  Network outcomes are
supplied as oracle parameters (`GetFileOutcome`, `CommitOutcome`,
`FetchOutcome`): the coordinator's behaviour is a function of the state and
of what the remote calls would return.  Timestamps (`new Date()`) are an
explicit `now : Nat` parameter.
-/

/-- A JSON value passed to `saveWorkoutData` as its `data` argument:
either a workout document `{workoutHistory, workoutDurations}` or a
pending-save wrapper object `{data, timestamp}`. -/
inductive DataVal where
  | doc (workoutHistory : List Nat) (workoutDurations : List (String × Nat))
  | wrapped (data : DataVal) (timestamp : Nat)
deriving DecidableEq, Repr

/-- The zero-value document `{workoutHistory: [], workoutDurations: {}}`. -/
def emptyDoc : DataVal := .doc [] []

/-- The cache entry stored under `gainsApp.workoutDataCache`:
`{data, sha, lastSync}` (mode B stores no `sha`, modelled as `none`). -/
structure CacheEntry where
  data : DataVal
  sha : Option String
  lastSync : Nat
deriving DecidableEq, Repr

/-- What the cache slot's string parses to: a well-formed entry, or corrupt
JSON (on which `JSON.parse` throws). -/
inductive StoredCache where
  | ok (e : CacheEntry)
  | corrupt
deriving DecidableEq, Repr

/-- One entry of the pending-saves queue: `{data, timestamp}`. -/
structure PendingSave where
  data : DataVal
  timestamp : Nat
deriving DecidableEq, Repr

/-- The pending-save queue entry viewed as the JSON value it is: the object
`{data, timestamp}`.  This is what `retryPendingSaves` actually passes to
`saveWorkoutData`. -/
def PendingSave.toDataVal (p : PendingSave) : DataVal :=
  .wrapped p.data p.timestamp

/-- What the `gainsApp.pendingSaves` slot's string parses to. -/
inductive StoredPending where
  | ok (l : List PendingSave)
  | corrupt
deriving DecidableEq, Repr

/-- Exceptions that can propagate out of a coordinator operation:
a `JSON.parse` SyntaxError, or an error thrown by the github client. -/
inductive GError where
  | tokenNotSet
  | api (msg : String)
deriving DecidableEq, Repr

/-- The `message` of the thrown `Error`, as built in `github.js`. -/
def GError.message : GError → String
  | .tokenNotSet => "GitHub token not set. Call setToken() first."
  | .api m => m

inductive Exc where
  | jsonParse
  | gh (e : GError)
deriving DecidableEq, Repr

/-- JavaScript truthiness of a `string|null` value: `null` and `""` are
falsy, every other string truthy. -/
def jsTruthy : Option String → Bool
  | none => false
  | some s => s != ""

/-- The whole mutable state visible to the coordinator: the two
localStorage slots of `workoutData.js`, the token slot of
`tokenStorage.js`, and the github client's module state. -/
structure St where
  cache : Option StoredCache
  pendingSlot : Option StoredPending
  tokenSlot : Option String
  authToken : Option String
  guardHit : Bool
deriving DecidableEq, Repr

/-- `loadToken()` — reads the stored token (string or null). -/
def loadToken (s : St) : Option String := s.tokenSlot

/-- `setToken(token)` from `github.js`. -/
def setToken (s : St) (t : String) : St := { s with authToken := some t }

/-- The content field of a fetched remote file: parses to a document, or is
not valid JSON. -/
inductive RContent where
  | parsable (d : DataVal)
  | malformed
deriving DecidableEq, Repr

/-- `getFile`'s successful response `{content, sha}`. -/
structure FileResp where
  content : RContent
  sha : String
deriving DecidableEq, Repr

/-- Oracle for one `getFile` call: 404 (`null`), a 200 response, or a
thrown error (network failure or non-ok API response) with its message. -/
inductive GetFileOutcome where
  | notFound
  | found (resp : FileResp)
  | err (msg : String)
deriving DecidableEq, Repr

/-- Whether the `getFile` oracle outcome is a thrown error. -/
def GetFileOutcome.isErr : GetFileOutcome → Bool
  | .err _ => true
  | _ => false

/-- Whether the `getFile` oracle outcome delivers a parsable document. -/
def GetFileOutcome.givesDoc : GetFileOutcome → Bool
  | .found ⟨.parsable _, _⟩ => true
  | _ => false

/-- Oracle for one `commitFile` call: the new content sha on success, or a
thrown error (e.g. the supplied sha no longer matches — stale revision
token — or a network failure). -/
inductive CommitOutcome where
  | ok (sha : String)
  | err (msg : String)
deriving DecidableEq, Repr

/-- Whether the `commitFile` oracle outcome is a thrown error. -/
def CommitOutcome.isErr : CommitOutcome → Bool
  | .err _ => true
  | _ => false

/-- `getFile(owner, repo, path, branch)` of `github.js`: throws
`tokenNotSet` when `authToken` is falsy (recording `guardHit`), else
returns the oracle outcome (`null` on 404, throws on other failures). -/
def getFile (s : St) (o : GetFileOutcome) : St × Except GError (Option FileResp) :=
  if jsTruthy s.authToken then
    match o with
    | .notFound => (s, .ok none)
    | .found r => (s, .ok (some r))
    | .err m => (s, .error (.api m))
  else
    ({ s with guardHit := true }, .error .tokenNotSet)

/-- `commitFile(...)` of `github.js`: same token guard; returns the new
content sha or throws. -/
def commitFile (s : St) (o : CommitOutcome) : St × Except GError String :=
  if jsTruthy s.authToken then
    match o with
    | .ok sha => (s, .ok sha)
    | .err m => (s, .error (.api m))
  else
    ({ s with guardHit := true }, .error .tokenNotSet)

/-- `saveWorkoutData`'s result value `{success, error?}`. -/
structure SaveResult where
  success : Bool
  error : Option String
deriving DecidableEq, Repr

/-- `retryPendingSaves`'s result value `{success, synced}`. -/
structure RetryResult where
  success : Bool
  synced : Nat
deriving DecidableEq, Repr

namespace ModeA

/-- `getPendingSaves()` — `pending ? JSON.parse(pending) : []`; throws on
corrupt stored JSON. -/
def getPendingSaves (s : St) : Except Exc (List PendingSave) :=
  match s.pendingSlot with
  | none => .ok []
  | some (.ok l) => .ok l
  | some .corrupt => .error .jsonParse

/-- `addPendingSave(data)` — push `{data, timestamp}` then keep only the
last 5 entries (`pending.slice(-5)`). -/
def addPendingSave (s : St) (data : DataVal) (now : Nat) : Except Exc St :=
  match getPendingSaves s with
  | .error e => .error e
  | .ok l =>
    let pushed := l ++ [PendingSave.mk data now]
    let trimmed := pushed.drop (pushed.length - 5)
    .ok { s with pendingSlot := some (.ok trimmed) }

/-- `clearPendingSaves()` — `localStorage.removeItem(PENDING_SAVES_KEY)`. -/
def clearPendingSaves (s : St) : St := { s with pendingSlot := none }

/-- The shared cache-fallback tail of `initWorkoutData`: read the cache
slot, `JSON.parse` it (throws, uncaught, when corrupt), return its `data`;
when absent return the empty structure. -/
def cacheFallback (s : St) : St × Except Exc DataVal :=
  match s.cache with
  | some (.ok e) => (s, .ok e.data)
  | some .corrupt => (s, .error .jsonParse)
  | none => (s, .ok emptyDoc)

/-- `initWorkoutData()` of `src/unnamed/part_000` (mode A): with a truthy
token, `setToken` then try a remote read; a parsable response is cached
(with its sha and the current timestamp) and returned; every failure inside
the try (thrown `getFile`, 404 falls through, unparsable content) falls
back to the cache. -/
def initWorkoutData (s : St) (g : GetFileOutcome) (now : Nat) :
    St × Except Exc DataVal :=
  let token := loadToken s
  if jsTruthy token then
    let s := setToken s (token.getD "")
    match getFile s g with
    | (s, .ok (some r)) =>
      match r.content with
      | .parsable d =>
        let s := { s with cache := some (.ok ⟨d, some r.sha, now⟩) }
        (s, .ok d)
      | .malformed => cacheFallback s
    | (s, .ok none) => cacheFallback s
    | (s, .error _) => cacheFallback s
  else
    cacheFallback s

/-- The read of the previously cached sha at the top of `saveWorkoutData`:
`JSON.parse(cached)` is outside any try/catch, so a corrupt cache slot
makes the whole save throw. -/
def readCachedSha (s : St) : Except Exc (Option String) :=
  match s.cache with
  | none => .ok none
  | some (.ok e) => .ok e.sha
  | some .corrupt => .error .jsonParse

/-- The `catch` block of mode-A `saveWorkoutData`: queue the document for
retry and report success with an advisory error message.  `addPendingSave`
itself throws when the pending slot is corrupt, and that exception
propagates. -/
def saveCatch (s : St) (data : DataVal) (now : Nat) (e : GError) :
    St × Except Exc SaveResult :=
  match addPendingSave s data now with
  | .error e2 => (s, .error e2)
  | .ok s2 => (s2, .ok ⟨true, some ("Saved locally but sync failed: " ++ e.message)⟩)

/-- `saveWorkoutData(data)` of `src/unnamed/part_000` (mode A): read the
prior sha from the cache (throws uncaught on corrupt cache), overwrite the
cache with `{data, sha: prior, lastSync: now}` before any network attempt;
with no token, queue the document and report deferred success; otherwise
`setToken`, re-read the remote sha, commit with it, update the cached sha
and clear the queue on success; any thrown remote error lands in the catch
block (`saveCatch`). -/
def saveWorkoutData (s : St) (data : DataVal) (g : GetFileOutcome)
    (c : CommitOutcome) (now : Nat) : St × Except Exc SaveResult :=
  match readCachedSha s with
  | .error e => (s, .error e)
  | .ok currentSha =>
    let s := { s with cache := some (.ok ⟨data, currentSha, now⟩) }
    let token := loadToken s
    if !(jsTruthy token) then
      match addPendingSave s data now with
      | .error e => (s, .error e)
      | .ok s2 =>
        (s2, .ok ⟨true, some "No token - saved locally, will sync when token added"⟩)
    else
      let s := setToken s (token.getD "")
      match getFile s g with
      | (s, .error e) => saveCatch s data now e
      | (s, .ok remote) =>
        let latestSha := remote.map (·.sha)
        match commitFile s c with
        | (s, .error e) =>
          let _ := latestSha
          saveCatch s data now e
        | (s, .ok newSha) =>
          let s := { s with cache := some (.ok ⟨data, some newSha, now⟩) }
          let s := clearPendingSaves s
          (s, .ok ⟨true, none⟩)

/-- `retryPendingSaves()` of `src/unnamed/part_000`: no-op on an empty
queue; failure without a token; otherwise re-invokes `saveWorkoutData` on
`pending[pending.length - 1]` — the queue entry object itself — and clears
the queue exactly when that save returned success with no error. -/
def retryPendingSaves (s : St) (g : GetFileOutcome) (c : CommitOutcome)
    (now : Nat) : St × Except Exc RetryResult :=
  match getPendingSaves s with
  | .error e => (s, .error e)
  | .ok pending =>
    if pending.length = 0 then (s, .ok ⟨true, 0⟩)
    else
      let token := loadToken s
      if !(jsTruthy token) then (s, .ok ⟨false, 0⟩)
      else
        let latestData := (pending.getLast?).getD ⟨emptyDoc, 0⟩
        match saveWorkoutData s latestData.toDataVal g c now with
        | (s, .error e) => (s, .error e)
        | (s, .ok result) =>
          if result.success && result.error.isNone then
            let s := clearPendingSaves s
            (s, .ok ⟨true, 1⟩)
          else (s, .ok ⟨false, 0⟩)

/-- `getSyncStatus()`'s result in mode A. -/
structure SyncStatus where
  hasPending : Bool
  pendingCount : Nat
  lastSync : Option Nat
deriving DecidableEq, Repr

/-- `getSyncStatus()` of `src/unnamed/part_000`: reads the queue and the
cache; `JSON.parse` of either slot throws uncaught when corrupt. -/
def getSyncStatus (s : St) : St × Except Exc SyncStatus :=
  match getPendingSaves s with
  | .error e => (s, .error e)
  | .ok pending =>
    match s.cache with
    | some .corrupt => (s, .error .jsonParse)
    | some (.ok e) =>
      (s, .ok ⟨decide (pending.length > 0), pending.length, some e.lastSync⟩)
    | none =>
      (s, .ok ⟨decide (pending.length > 0), pending.length, none⟩)

end ModeA

namespace ModeB

/-- Oracle for mode B's unauthenticated `fetch(RAW_URL)`: an ok response
whose body may or may not parse, a non-ok response, or a network error
(the fetch itself rejects). -/
inductive FetchOutcome where
  | ok (body : RContent)
  | httpErr
  | netErr
deriving DecidableEq, Repr

/-- Whether the fetch oracle outcome delivers a parsable document. -/
def FetchOutcome.givesDoc : FetchOutcome → Bool
  | .ok (.parsable _) => true
  | _ => false

/-- `initWorkoutData()` of `workoutData.js` (mode B): always attempt the
public raw fetch; an ok parsable response is cached `{data, lastSync}` and
returned; a non-ok response falls through, a rejected fetch or body-parse
failure is caught — all land in the cache fallback (which throws on a
corrupt cache entry). -/
def initWorkoutData (s : St) (f : FetchOutcome) (now : Nat) :
    St × Except Exc DataVal :=
  match f with
  | .ok (.parsable d) =>
    let s := { s with cache := some (.ok ⟨d, none, now⟩) }
    (s, .ok d)
  | .ok .malformed => ModeA.cacheFallback s
  | .httpErr => ModeA.cacheFallback s
  | .netErr => ModeA.cacheFallback s

/-- `saveWorkoutData(data)` of `workoutData.js` (mode B): cache
`{data, lastSync}` first, unconditionally; with no token report failure
with an actionable message; otherwise `setToken`, read the remote sha,
commit, and report; any thrown remote error is caught and reported as
`success:false`. -/
def saveWorkoutData (s : St) (data : DataVal) (g : GetFileOutcome)
    (c : CommitOutcome) (now : Nat) : St × Except Exc SaveResult :=
  let s := { s with cache := some (.ok ⟨data, none, now⟩) }
  let token := loadToken s
  if !(jsTruthy token) then
    (s, .ok ⟨false, some "No token. Add #token=YOUR_TOKEN to URL or paste in settings."⟩)
  else
    let s := setToken s (token.getD "")
    match getFile s g with
    | (s, .error e) =>
      (s, .ok ⟨false, some ("Save failed: " ++ e.message ++ ". Data cached locally.")⟩)
    | (s, .ok remote) =>
      let sha := remote.map (·.sha)
      match commitFile s c with
      | (s, .error e) =>
        let _ := sha
        (s, .ok ⟨false, some ("Save failed: " ++ e.message ++ ". Data cached locally.")⟩)
      | (s, .ok _) => (s, .ok ⟨true, none⟩)

/-- `getSyncStatus()`'s result in mode B. -/
structure SyncStatus where
  hasToken : Bool
  lastSync : Option Nat
deriving DecidableEq, Repr

/-- `getSyncStatus()` of `workoutData.js`: `JSON.parse(cached)` throws
uncaught when the cache slot is corrupt. -/
def getSyncStatus (s : St) : St × Except Exc SyncStatus :=
  match s.cache with
  | some .corrupt => (s, .error .jsonParse)
  | some (.ok e) => (s, .ok ⟨jsTruthy (loadToken s), some e.lastSync⟩)
  | none => (s, .ok ⟨jsTruthy (loadToken s), none⟩)

end ModeB

/-!
Wire encoding model for `github.js` (claim C8).  Strings are modelled as
lists of Unicode code points; byte strings as lists of byte values.

* `commitFile` encodes with `btoa(unescape(encodeURIComponent(content)))`:
  `encodeURIComponent` percent-encodes the UTF-8 bytes and `unescape` turns
  each `%XX` into the character with code `XX`, so the composition maps the
  string to its UTF-8 byte sequence, which `btoa` then base64-encodes.
* `getFile` decodes with `atob(data.content.replace(/\n/g, ''))` alone:
  the result is the decoded byte sequence read back as one character per
  byte (Latin-1), with no UTF-8 decoding step.
-/

/-- UTF-8 encoding of a single Unicode code point. -/
def utf8Bytes (c : Nat) : List Nat :=
  if c < 128 then [c]
  else if c < 2048 then [192 + c / 64, 128 + c % 64]
  else if c < 65536 then [224 + c / 4096, 128 + c / 64 % 64, 128 + c % 64]
  else [240 + c / 262144, 128 + c / 4096 % 64, 128 + c / 64 % 64, 128 + c % 64]

/-- UTF-8 encoding of a string (list of code points) to its byte list.
This is what `unescape(encodeURIComponent(s))` produces, read as char
codes. -/
def utf8Encode (s : List Nat) : List Nat := (s.map utf8Bytes).flatten

/-- The base64 alphabet: sextet value (0–63) to ASCII code. -/
def b64Char (n : Nat) : Nat :=
  if n < 26 then 65 + n
  else if n < 52 then 97 + (n - 26)
  else if n < 62 then 48 + (n - 52)
  else if n = 62 then 43
  else 47

/-- Inverse of the base64 alphabet: ASCII code to sextet value. -/
def b64Inv (c : Nat) : Nat :=
  if 65 ≤ c ∧ c ≤ 90 then c - 65
  else if 97 ≤ c ∧ c ≤ 122 then c - 97 + 26
  else if 48 ≤ c ∧ c ≤ 57 then c - 48 + 52
  else if c = 43 then 62
  else 63

/-- `btoa`: base64-encode a byte list to a list of ASCII codes (61 = '='
padding). -/
def btoa : List Nat → List Nat
  | [] => []
  | [b1] => [b64Char (b1 / 4), b64Char (b1 % 4 * 16), 61, 61]
  | [b1, b2] =>
    [b64Char (b1 / 4), b64Char (b1 % 4 * 16 + b2 / 16), b64Char (b2 % 16 * 4), 61]
  | b1 :: b2 :: b3 :: rest =>
    b64Char (b1 / 4) :: b64Char (b1 % 4 * 16 + b2 / 16) ::
      b64Char (b2 % 16 * 4 + b3 / 64) :: b64Char (b3 % 64) :: btoa rest

/-- `atob`: base64-decode a list of ASCII codes back to the byte list. -/
def atob : List Nat → List Nat
  | c1 :: c2 :: c3 :: c4 :: rest =>
    let s1 := b64Inv c1
    let s2 := b64Inv c2
    if c3 = 61 then [s1 * 4 + s2 / 16]
    else
      let s3 := b64Inv c3
      if c4 = 61 then [s1 * 4 + s2 / 16, s2 % 16 * 16 + s3 / 4]
      else
        (s1 * 4 + s2 / 16) :: (s2 % 16 * 16 + s3 / 4) ::
          (s3 % 4 * 64 + b64Inv c4) :: atob rest
  | _ => []

/-- The encode performed by `commitFile`:
`btoa(unescape(encodeURIComponent(content)))`. -/
def commitFileEncode (s : List Nat) : List Nat := btoa (utf8Encode s)

/-- The decode performed by `getFile`: `atob(content)` alone, each decoded
byte becoming one character code. -/
def getFileDecode (b : List Nat) : List Nat := atob b

/-- A UTF-8-safe decode matching the spec's transport contract would be
`decodeURIComponent(escape(atob(content)))`, i.e. `atob` followed by UTF-8
decoding; composed with `commitFileEncode` it is the identity exactly when
`getFileDecode ∘ commitFileEncode` returns the original code points. -/
def wireRoundTrip (s : List Nat) : List Nat := getFileDecode (commitFileEncode s)

/-- The queue length visible through well-formed stored JSON. -/
def queueLen (s : St) : Nat :=
  match s.pendingSlot with
  | some (.ok l) => l.length
  | _ => 0

/-!  Helper lemmas: branch characterizations of the embedded operations. -/

theorem jsTruthy_getD (o : Option String) (h : jsTruthy o = true) :
    jsTruthy (some (o.getD "")) = true := by
  cases o <;> simp_all [jsTruthy]

theorem getFile_auth (s : St) (g : GetFileOutcome) (h : jsTruthy s.authToken = true) :
    getFile s g = (s,
      match g with
      | .notFound => .ok none
      | .found r => .ok (some r)
      | .err m => .error (.api m)) := by
  cases g <;> simp [getFile, h]

theorem commitFile_auth (s : St) (c : CommitOutcome) (h : jsTruthy s.authToken = true) :
    commitFile s c = (s,
      match c with
      | .ok sha => .ok sha
      | .err m => .error (.api m)) := by
  cases c <;> simp [commitFile, h]

theorem cacheFallback_none (s : St) (h : s.cache = none) :
    ModeA.cacheFallback s = (s, .ok emptyDoc) := by
  unfold ModeA.cacheFallback
  rw [h]

theorem cacheFallback_entry (s : St) (e : CacheEntry) (h : s.cache = some (.ok e)) :
    ModeA.cacheFallback s = (s, .ok e.data) := by
  unfold ModeA.cacheFallback
  rw [h]

theorem cacheFallback_snd_ok (s : St) (h : s.cache ≠ some .corrupt) :
    ∃ d, (ModeA.cacheFallback s).2 = .ok d := by
  unfold ModeA.cacheFallback
  match hc : s.cache with
  | none => exact ⟨emptyDoc, rfl⟩
  | some (.ok e) => exact ⟨e.data, rfl⟩
  | some .corrupt => exact absurd hc h

theorem initA_no_token (s : St) (g : GetFileOutcome) (now : Nat)
    (h : jsTruthy s.tokenSlot = false) :
    ModeA.initWorkoutData s g now = ModeA.cacheFallback s := by
  simp only [ModeA.initWorkoutData, loadToken, h]
  simp

theorem initA_token_doc (s : St) (now : Nat) (d : DataVal) (sha : String)
    (h : jsTruthy s.tokenSlot = true) :
    ModeA.initWorkoutData s (.found ⟨.parsable d, sha⟩) now =
      ({ s with authToken := some (s.tokenSlot.getD ""),
                cache := some (.ok ⟨d, some sha, now⟩) }, .ok d) := by
  simp only [ModeA.initWorkoutData, loadToken, h, if_true]
  rw [getFile_auth _ _ (jsTruthy_getD _ h)]
  rfl

theorem initA_token_no_doc (s : St) (g : GetFileOutcome) (now : Nat)
    (h : jsTruthy s.tokenSlot = true) (hg : g.givesDoc = false) :
    ModeA.initWorkoutData s g now =
      ModeA.cacheFallback { s with authToken := some (s.tokenSlot.getD "") } := by
  simp only [ModeA.initWorkoutData, loadToken, h, if_true]
  rw [getFile_auth _ _ (jsTruthy_getD _ h)]
  cases g with
  | notFound => rfl
  | err m => rfl
  | found r =>
    obtain ⟨rc, sha⟩ := r
    cases rc with
    | parsable d => simp [GetFileOutcome.givesDoc] at hg
    | malformed => rfl

theorem saveA_cache_corrupt (s : St) (data : DataVal) (g : GetFileOutcome)
    (c : CommitOutcome) (now : Nat) (h : s.cache = some .corrupt) :
    ModeA.saveWorkoutData s data g c now = (s, .error .jsonParse) := by
  simp only [ModeA.saveWorkoutData, ModeA.readCachedSha, h]

theorem readCachedSha_not_corrupt (s : St) (h : s.cache ≠ some .corrupt) :
    ∃ sh, ModeA.readCachedSha s = .ok sh := by
  unfold ModeA.readCachedSha
  match hc : s.cache with
  | none => exact ⟨none, rfl⟩
  | some (.ok e) => exact ⟨e.sha, rfl⟩
  | some .corrupt => exact absurd hc h

theorem saveA_no_token (s : St) (data : DataVal) (g : GetFileOutcome) (c : CommitOutcome)
    (now : Nat) (sha0 : Option String) (l : List PendingSave)
    (hsha : ModeA.readCachedSha s = .ok sha0)
    (ht : jsTruthy s.tokenSlot = false)
    (hp : ModeA.getPendingSaves s = .ok l) :
    ModeA.saveWorkoutData s data g c now =
      ({ s with
          cache := some (.ok ⟨data, sha0, now⟩),
          pendingSlot := some (.ok ((l ++ [PendingSave.mk data now]).drop ((l ++ [PendingSave.mk data now]).length - 5))) },
       .ok ⟨true, some "No token - saved locally, will sync when token added"⟩) := by
  have hp1 : ModeA.getPendingSaves
      { s with cache := some (StoredCache.ok ⟨data, sha0, now⟩) } = .ok l := hp
  simp only [ModeA.saveWorkoutData, hsha, loadToken, ht, Bool.not_false, reduceIte,
    ModeA.addPendingSave, hp1]

theorem saveA_getFile_err (s : St) (data : DataVal) (c : CommitOutcome)
    (now : Nat) (sha0 : Option String) (l : List PendingSave) (m : String)
    (hsha : ModeA.readCachedSha s = .ok sha0)
    (ht : jsTruthy s.tokenSlot = true)
    (hp : ModeA.getPendingSaves s = .ok l) :
    ModeA.saveWorkoutData s data (.err m) c now =
      ({ s with
          cache := some (.ok ⟨data, sha0, now⟩),
          authToken := some (s.tokenSlot.getD ""),
          pendingSlot := some (.ok ((l ++ [PendingSave.mk data now]).drop ((l ++ [PendingSave.mk data now]).length - 5))) },
       .ok ⟨true, some ("Saved locally but sync failed: " ++ m)⟩) := by
  have hp1 : ModeA.getPendingSaves
      { s with cache := some (StoredCache.ok ⟨data, sha0, now⟩),
               authToken := some (s.tokenSlot.getD "") } = .ok l := hp
  simp only [ModeA.saveWorkoutData, hsha, loadToken, ht, Bool.not_true, Bool.false_eq_true,
    if_false]
  rw [getFile_auth _ _ (jsTruthy_getD _ ht)]
  simp only [ModeA.saveCatch, ModeA.addPendingSave, setToken, hp1]
  rfl

theorem saveA_commit_err (s : St) (data : DataVal) (g : GetFileOutcome)
    (now : Nat) (sha0 : Option String) (l : List PendingSave) (m : String)
    (hsha : ModeA.readCachedSha s = .ok sha0)
    (ht : jsTruthy s.tokenSlot = true)
    (hp : ModeA.getPendingSaves s = .ok l)
    (hg : g.isErr = false) :
    ModeA.saveWorkoutData s data g (.err m) now =
      ({ s with
          cache := some (.ok ⟨data, sha0, now⟩),
          authToken := some (s.tokenSlot.getD ""),
          pendingSlot := some (.ok ((l ++ [PendingSave.mk data now]).drop ((l ++ [PendingSave.mk data now]).length - 5))) },
       .ok ⟨true, some ("Saved locally but sync failed: " ++ m)⟩) := by
  have hp1 : ModeA.getPendingSaves
      { s with cache := some (StoredCache.ok ⟨data, sha0, now⟩),
               authToken := some (s.tokenSlot.getD "") } = .ok l := hp
  simp only [ModeA.saveWorkoutData, hsha, loadToken, ht, Bool.not_true, Bool.false_eq_true,
    if_false]
  rw [getFile_auth _ _ (jsTruthy_getD _ ht)]
  cases g with
  | err m2 => simp [GetFileOutcome.isErr] at hg
  | notFound =>
    dsimp only
    rw [commitFile_auth _ _ (jsTruthy_getD _ ht)]
    simp only [ModeA.saveCatch, ModeA.addPendingSave, setToken, hp1]
    rfl
  | found r =>
    dsimp only
    rw [commitFile_auth _ _ (jsTruthy_getD _ ht)]
    simp only [ModeA.saveCatch, ModeA.addPendingSave, setToken, hp1]
    rfl

theorem saveA_success (s : St) (data : DataVal) (g : GetFileOutcome)
    (now : Nat) (sha0 : Option String) (newSha : String)
    (hsha : ModeA.readCachedSha s = .ok sha0)
    (ht : jsTruthy s.tokenSlot = true)
    (hg : g.isErr = false) :
    ModeA.saveWorkoutData s data g (.ok newSha) now =
      ({ s with
          cache := some (.ok ⟨data, some newSha, now⟩),
          authToken := some (s.tokenSlot.getD ""),
          pendingSlot := none },
       .ok ⟨true, none⟩) := by
  simp only [ModeA.saveWorkoutData, hsha, loadToken, ht, Bool.not_true, Bool.false_eq_true,
    if_false]
  rw [getFile_auth _ _ (jsTruthy_getD _ ht)]
  cases g with
  | err m2 => simp [GetFileOutcome.isErr] at hg
  | notFound =>
    dsimp only
    rw [commitFile_auth _ _ (jsTruthy_getD _ ht)]
    rfl
  | found r =>
    dsimp only
    rw [commitFile_auth _ _ (jsTruthy_getD _ ht)]
    rfl

theorem getPendingSaves_error_iff (s : St) (e : Exc) :
    ModeA.getPendingSaves s = .error e ↔ s.pendingSlot = some .corrupt ∧ e = .jsonParse := by
  unfold ModeA.getPendingSaves
  match hps : s.pendingSlot with
  | none => simp
  | some (.ok l) => simp
  | some .corrupt => simp [eq_comm]

theorem saveA_pending_corrupt_no_token (s : St) (data : DataVal) (g : GetFileOutcome)
    (c : CommitOutcome) (now : Nat) (sha0 : Option String)
    (hsha : ModeA.readCachedSha s = .ok sha0)
    (ht : jsTruthy s.tokenSlot = false)
    (hps : s.pendingSlot = some .corrupt) :
    ModeA.saveWorkoutData s data g c now =
      ({ s with cache := some (.ok ⟨data, sha0, now⟩) }, .error .jsonParse) := by
  have hp1 : ModeA.getPendingSaves
      { s with cache := some (StoredCache.ok ⟨data, sha0, now⟩) } = .error .jsonParse := by
    simp [ModeA.getPendingSaves, hps]
  simp only [ModeA.saveWorkoutData, hsha, loadToken, ht, Bool.not_false, reduceIte,
    ModeA.addPendingSave, hp1]

theorem saveA_pending_corrupt_getFile_err (s : St) (data : DataVal) (c : CommitOutcome)
    (now : Nat) (sha0 : Option String) (m : String)
    (hsha : ModeA.readCachedSha s = .ok sha0)
    (ht : jsTruthy s.tokenSlot = true)
    (hps : s.pendingSlot = some .corrupt) :
    ModeA.saveWorkoutData s data (.err m) c now =
      ({ s with cache := some (.ok ⟨data, sha0, now⟩),
                authToken := some (s.tokenSlot.getD "") }, .error .jsonParse) := by
  have hp1 : ModeA.getPendingSaves
      { s with cache := some (StoredCache.ok ⟨data, sha0, now⟩),
               authToken := some (s.tokenSlot.getD "") } = .error .jsonParse := by
    simp [ModeA.getPendingSaves, hps]
  simp only [ModeA.saveWorkoutData, hsha, loadToken, ht, Bool.not_true, Bool.false_eq_true,
    if_false]
  rw [getFile_auth _ _ (jsTruthy_getD _ ht)]
  simp only [ModeA.saveCatch, ModeA.addPendingSave, setToken, hp1]

theorem saveA_pending_corrupt_commit_err (s : St) (data : DataVal) (g : GetFileOutcome)
    (now : Nat) (sha0 : Option String) (m : String)
    (hsha : ModeA.readCachedSha s = .ok sha0)
    (ht : jsTruthy s.tokenSlot = true)
    (hps : s.pendingSlot = some .corrupt)
    (hg : g.isErr = false) :
    ModeA.saveWorkoutData s data g (.err m) now =
      ({ s with cache := some (.ok ⟨data, sha0, now⟩),
                authToken := some (s.tokenSlot.getD "") }, .error .jsonParse) := by
  have hp1 : ModeA.getPendingSaves
      { s with cache := some (StoredCache.ok ⟨data, sha0, now⟩),
               authToken := some (s.tokenSlot.getD "") } = .error .jsonParse := by
    simp [ModeA.getPendingSaves, hps]
  simp only [ModeA.saveWorkoutData, hsha, loadToken, ht, Bool.not_true, Bool.false_eq_true,
    if_false]
  rw [getFile_auth _ _ (jsTruthy_getD _ ht)]
  cases g with
  | err m2 => simp [GetFileOutcome.isErr] at hg
  | notFound =>
    dsimp only
    rw [commitFile_auth _ _ (jsTruthy_getD _ ht)]
    simp only [ModeA.saveCatch, ModeA.addPendingSave, setToken, hp1]
  | found r =>
    dsimp only
    rw [commitFile_auth _ _ (jsTruthy_getD _ ht)]
    simp only [ModeA.saveCatch, ModeA.addPendingSave, setToken, hp1]

theorem saveA_writes_cache (s : St) (data : DataVal) (g : GetFileOutcome) (c : CommitOutcome)
    (now : Nat) (hcc : s.cache ≠ some .corrupt) :
    ∃ sh, (ModeA.saveWorkoutData s data g c now).1.cache = some (.ok ⟨data, sh, now⟩) := by
  obtain ⟨sha0, hsha⟩ := readCachedSha_not_corrupt s hcc
  by_cases ht : jsTruthy s.tokenSlot = true
  · cases g with
    | err m =>
      cases hp2 : ModeA.getPendingSaves s with
      | error e =>
        obtain ⟨hps, rfl⟩ := (getPendingSaves_error_iff s e).mp hp2
        rw [saveA_pending_corrupt_getFile_err s data c now sha0 m hsha ht hps]
        exact ⟨sha0, rfl⟩
      | ok l =>
        rw [saveA_getFile_err s data c now sha0 l m hsha ht hp2]
        exact ⟨sha0, rfl⟩
    | notFound =>
      cases c with
      | ok newSha =>
        rw [saveA_success s data .notFound now sha0 newSha hsha ht rfl]
        exact ⟨some newSha, rfl⟩
      | err m =>
        cases hp2 : ModeA.getPendingSaves s with
        | error e =>
          obtain ⟨hps, rfl⟩ := (getPendingSaves_error_iff s e).mp hp2
          rw [saveA_pending_corrupt_commit_err s data .notFound now sha0 m hsha ht hps rfl]
          exact ⟨sha0, rfl⟩
        | ok l =>
          rw [saveA_commit_err s data .notFound now sha0 l m hsha ht hp2 rfl]
          exact ⟨sha0, rfl⟩
    | found r =>
      cases c with
      | ok newSha =>
        rw [saveA_success s data (.found r) now sha0 newSha hsha ht rfl]
        exact ⟨some newSha, rfl⟩
      | err m =>
        cases hp2 : ModeA.getPendingSaves s with
        | error e =>
          obtain ⟨hps, rfl⟩ := (getPendingSaves_error_iff s e).mp hp2
          rw [saveA_pending_corrupt_commit_err s data (.found r) now sha0 m hsha ht hps rfl]
          exact ⟨sha0, rfl⟩
        | ok l =>
          rw [saveA_commit_err s data (.found r) now sha0 l m hsha ht hp2 rfl]
          exact ⟨sha0, rfl⟩
  · have ht2 : jsTruthy s.tokenSlot = false := by
      revert ht
      cases jsTruthy s.tokenSlot <;> simp
    cases hp2 : ModeA.getPendingSaves s with
    | error e =>
      obtain ⟨hps, rfl⟩ := (getPendingSaves_error_iff s e).mp hp2
      rw [saveA_pending_corrupt_no_token s data g c now sha0 hsha ht2 hps]
      exact ⟨sha0, rfl⟩
    | ok l =>
      rw [saveA_no_token s data g c now sha0 l hsha ht2 hp2]
      exact ⟨sha0, rfl⟩

theorem saveA_ok_not_corrupt (s : St) (data : DataVal) (g : GetFileOutcome)
    (c : CommitOutcome) (now : Nat) (r : SaveResult)
    (h : (ModeA.saveWorkoutData s data g c now).2 = .ok r) :
    s.cache ≠ some .corrupt := by
  intro hcc
  rw [saveA_cache_corrupt _ _ _ _ _ hcc] at h
  simp at h

theorem saveB_no_token (s : St) (data : DataVal) (g : GetFileOutcome) (c : CommitOutcome)
    (now : Nat) (ht : jsTruthy s.tokenSlot = false) :
    ModeB.saveWorkoutData s data g c now =
      ({ s with cache := some (.ok ⟨data, none, now⟩) },
       .ok ⟨false, some "No token. Add #token=YOUR_TOKEN to URL or paste in settings."⟩) := by
  simp only [ModeB.saveWorkoutData, loadToken, ht, Bool.not_false, reduceIte]

theorem saveB_getFile_err (s : St) (data : DataVal) (c : CommitOutcome)
    (now : Nat) (m : String)
    (ht : jsTruthy s.tokenSlot = true) :
    ModeB.saveWorkoutData s data (.err m) c now =
      ({ s with cache := some (.ok ⟨data, none, now⟩),
                authToken := some (s.tokenSlot.getD "") },
       .ok ⟨false, some ("Save failed: " ++ m ++ ". Data cached locally.")⟩) := by
  simp only [ModeB.saveWorkoutData, loadToken, ht, Bool.not_true, Bool.false_eq_true, if_false]
  rw [getFile_auth _ _ (jsTruthy_getD _ ht)]
  simp only [GError.message, setToken]

theorem saveB_commit_err (s : St) (data : DataVal) (g : GetFileOutcome)
    (now : Nat) (m : String)
    (ht : jsTruthy s.tokenSlot = true)
    (hg : g.isErr = false) :
    ModeB.saveWorkoutData s data g (.err m) now =
      ({ s with cache := some (.ok ⟨data, none, now⟩),
                authToken := some (s.tokenSlot.getD "") },
       .ok ⟨false, some ("Save failed: " ++ m ++ ". Data cached locally.")⟩) := by
  simp only [ModeB.saveWorkoutData, loadToken, ht, Bool.not_true, Bool.false_eq_true, if_false]
  rw [getFile_auth _ _ (jsTruthy_getD _ ht)]
  cases g with
  | err m2 => simp [GetFileOutcome.isErr] at hg
  | notFound =>
    dsimp only
    rw [commitFile_auth _ _ (jsTruthy_getD _ ht)]
    simp only [GError.message, setToken]
  | found r =>
    dsimp only
    rw [commitFile_auth _ _ (jsTruthy_getD _ ht)]
    simp only [GError.message, setToken]

theorem saveB_success (s : St) (data : DataVal) (g : GetFileOutcome)
    (now : Nat) (newSha : String)
    (ht : jsTruthy s.tokenSlot = true)
    (hg : g.isErr = false) :
    ModeB.saveWorkoutData s data g (.ok newSha) now =
      ({ s with cache := some (.ok ⟨data, none, now⟩),
                authToken := some (s.tokenSlot.getD "") },
       .ok ⟨true, none⟩) := by
  simp only [ModeB.saveWorkoutData, loadToken, ht, Bool.not_true, Bool.false_eq_true, if_false]
  rw [getFile_auth _ _ (jsTruthy_getD _ ht)]
  cases g with
  | err m2 => simp [GetFileOutcome.isErr] at hg
  | notFound =>
    dsimp only
    rw [commitFile_auth _ _ (jsTruthy_getD _ ht)]
    rfl
  | found r =>
    dsimp only
    rw [commitFile_auth _ _ (jsTruthy_getD _ ht)]
    rfl

theorem saveB_writes_cache (s : St) (data : DataVal) (g : GetFileOutcome) (c : CommitOutcome)
    (now : Nat) :
    (ModeB.saveWorkoutData s data g c now).1.cache = some (.ok ⟨data, none, now⟩) := by
  by_cases ht : jsTruthy s.tokenSlot = true
  · cases g with
    | err m => rw [saveB_getFile_err s data c now m ht]
    | notFound =>
      cases c with
      | ok newSha => rw [saveB_success s data .notFound now newSha ht rfl]
      | err m => rw [saveB_commit_err s data .notFound now m ht rfl]
    | found r =>
      cases c with
      | ok newSha => rw [saveB_success s data (.found r) now newSha ht rfl]
      | err m => rw [saveB_commit_err s data (.found r) now m ht rfl]
  · have ht2 : jsTruthy s.tokenSlot = false := by
      revert ht
      cases jsTruthy s.tokenSlot <;> simp
    rw [saveB_no_token s data g c now ht2]

theorem initB_fail (s : St) (f : ModeB.FetchOutcome) (now : Nat)
    (hf : f.givesDoc = false) :
    ModeB.initWorkoutData s f now = ModeA.cacheFallback s := by
  cases f with
  | ok body =>
    cases body with
    | parsable d => simp [ModeB.FetchOutcome.givesDoc] at hf
    | malformed => rfl
  | httpErr => rfl
  | netErr => rfl

theorem initB_doc (s : St) (d : DataVal) (now : Nat) :
    ModeB.initWorkoutData s (.ok (.parsable d)) now =
      ({ s with cache := some (.ok ⟨d, none, now⟩) }, .ok d) := rfl

/-- Exhaustive case analysis of mode-A `saveWorkoutData`: any property of
its result can be established by checking the six reachable outcome
shapes. -/
theorem saveA_cases (s : St) (data : DataVal) (g : GetFileOutcome) (c : CommitOutcome)
    (now : Nat) (motive : St × Except Exc SaveResult → Prop)
    (hcorrupt : s.cache = some .corrupt → motive (s, .error .jsonParse))
    (hnotok : ∀ sha0 l, ModeA.readCachedSha s = .ok sha0 →
      jsTruthy s.tokenSlot = false → ModeA.getPendingSaves s = .ok l →
      motive ({ s with
            cache := some (.ok ⟨data, sha0, now⟩),
            pendingSlot := some (.ok ((l ++ [PendingSave.mk data now]).drop
              ((l ++ [PendingSave.mk data now]).length - 5))) },
        .ok ⟨true, some "No token - saved locally, will sync when token added"⟩))
    (hnotokc : ∀ sha0, ModeA.readCachedSha s = .ok sha0 →
      jsTruthy s.tokenSlot = false → s.pendingSlot = some .corrupt →
      motive ({ s with
            cache := some (.ok ⟨data, sha0, now⟩) }, .error .jsonParse))
    (hfail : ∀ sha0 l m, ModeA.readCachedSha s = .ok sha0 →
      jsTruthy s.tokenSlot = true → ModeA.getPendingSaves s = .ok l →
      (g = .err m ∨ (g.isErr = false ∧ c = .err m)) →
      motive ({ s with
            cache := some (.ok ⟨data, sha0, now⟩),
            authToken := some (s.tokenSlot.getD ""),
            pendingSlot := some (.ok ((l ++ [PendingSave.mk data now]).drop
              ((l ++ [PendingSave.mk data now]).length - 5))) },
        .ok ⟨true, some ("Saved locally but sync failed: " ++ m)⟩))
    (hfailc : ∀ sha0 m, ModeA.readCachedSha s = .ok sha0 →
      jsTruthy s.tokenSlot = true → s.pendingSlot = some .corrupt →
      (g = .err m ∨ (g.isErr = false ∧ c = .err m)) →
      motive ({ s with
            cache := some (.ok ⟨data, sha0, now⟩),
            authToken := some (s.tokenSlot.getD "") }, .error .jsonParse))
    (hsuccess : ∀ sha0 newSha, ModeA.readCachedSha s = .ok sha0 →
      jsTruthy s.tokenSlot = true → g.isErr = false → c = .ok newSha →
      motive ({ s with
            cache := some (.ok ⟨data, some newSha, now⟩),
            authToken := some (s.tokenSlot.getD ""), pendingSlot := none },
        .ok ⟨true, none⟩)) :
    motive (ModeA.saveWorkoutData s data g c now) := by
  by_cases hcc : s.cache = some .corrupt
  · rw [saveA_cache_corrupt s data g c now hcc]
    exact hcorrupt hcc
  · obtain ⟨sha0, hsha⟩ := readCachedSha_not_corrupt s hcc
    by_cases ht : jsTruthy s.tokenSlot = true
    · cases g with
      | err m =>
        cases hp2 : ModeA.getPendingSaves s with
        | error e =>
          obtain ⟨hps, rfl⟩ := (getPendingSaves_error_iff s e).mp hp2
          rw [saveA_pending_corrupt_getFile_err s data c now sha0 m hsha ht hps]
          exact hfailc sha0 m hsha ht hps (Or.inl rfl)
        | ok l =>
          rw [saveA_getFile_err s data c now sha0 l m hsha ht hp2]
          exact hfail sha0 l m hsha ht hp2 (Or.inl rfl)
      | notFound =>
        cases c with
        | ok newSha =>
          rw [saveA_success s data .notFound now sha0 newSha hsha ht rfl]
          exact hsuccess sha0 newSha hsha ht rfl rfl
        | err m =>
          cases hp2 : ModeA.getPendingSaves s with
          | error e =>
            obtain ⟨hps, rfl⟩ := (getPendingSaves_error_iff s e).mp hp2
            rw [saveA_pending_corrupt_commit_err s data .notFound now sha0 m hsha ht hps rfl]
            exact hfailc sha0 m hsha ht hps (Or.inr ⟨rfl, rfl⟩)
          | ok l =>
            rw [saveA_commit_err s data .notFound now sha0 l m hsha ht hp2 rfl]
            exact hfail sha0 l m hsha ht hp2 (Or.inr ⟨rfl, rfl⟩)
      | found r =>
        cases c with
        | ok newSha =>
          rw [saveA_success s data (.found r) now sha0 newSha hsha ht rfl]
          exact hsuccess sha0 newSha hsha ht rfl rfl
        | err m =>
          cases hp2 : ModeA.getPendingSaves s with
          | error e =>
            obtain ⟨hps, rfl⟩ := (getPendingSaves_error_iff s e).mp hp2
            rw [saveA_pending_corrupt_commit_err s data (.found r) now sha0 m hsha ht hps rfl]
            exact hfailc sha0 m hsha ht hps (Or.inr ⟨rfl, rfl⟩)
          | ok l =>
            rw [saveA_commit_err s data (.found r) now sha0 l m hsha ht hp2 rfl]
            exact hfail sha0 l m hsha ht hp2 (Or.inr ⟨rfl, rfl⟩)
    · have ht2 : jsTruthy s.tokenSlot = false := by
        revert ht
        cases jsTruthy s.tokenSlot <;> simp
      cases hp2 : ModeA.getPendingSaves s with
      | error e =>
        obtain ⟨hps, rfl⟩ := (getPendingSaves_error_iff s e).mp hp2
        rw [saveA_pending_corrupt_no_token s data g c now sha0 hsha ht2 hps]
        exact hnotokc sha0 hsha ht2 hps
      | ok l =>
        rw [saveA_no_token s data g c now sha0 l hsha ht2 hp2]
        exact hnotok sha0 l hsha ht2 hp2

theorem trim_len_le (l : List PendingSave) (x : PendingSave) :
    ((l ++ [x]).drop ((l ++ [x]).length - 5)).length ≤ 5 := by
  simp only [List.length_drop, List.length_append, List.length_cons, List.length_nil]
  omega

theorem saveA_guardHit (s : St) (data : DataVal) (g : GetFileOutcome) (c : CommitOutcome)
    (now : Nat) :
    (ModeA.saveWorkoutData s data g c now).1.guardHit = s.guardHit := by
  refine saveA_cases s data g c now (fun p => p.1.guardHit = s.guardHit) ?_ ?_ ?_ ?_ ?_ ?_ <;>
    · intros; rfl

theorem saveA_queueLen (s : St) (data : DataVal) (g : GetFileOutcome) (c : CommitOutcome)
    (now : Nat) :
    queueLen (ModeA.saveWorkoutData s data g c now).1 ≤ max (queueLen s) 5 := by
  refine saveA_cases s data g c now (fun p => queueLen p.1 ≤ max (queueLen s) 5) ?_ ?_ ?_ ?_ ?_ ?_
  · intro _; exact le_max_left _ _
  · intro sha0 l _ _ _
    exact le_trans (by simpa [queueLen] using trim_len_le l (PendingSave.mk data now))
      (le_max_right _ _)
  · intro sha0 _ _ hps
    simp [queueLen, hps]
  · intro sha0 l m _ _ _ _
    exact le_trans (by simpa [queueLen] using trim_len_le l (PendingSave.mk data now))
      (le_max_right _ _)
  · intro sha0 m _ _ hps _
    simp [queueLen, hps]
  · intro sha0 newSha _ _ _ _
    simp [queueLen]

theorem cacheFallback_fst (s : St) : (ModeA.cacheFallback s).1 = s := by
  unfold ModeA.cacheFallback
  split <;> rfl

theorem queueLen_congr (s1 s2 : St) (h : s1.pendingSlot = s2.pendingSlot) :
    queueLen s1 = queueLen s2 := by
  unfold queueLen
  rw [h]

theorem jsTruthy_not_true (o : Option String) (h : ¬ jsTruthy o = true) :
    jsTruthy o = false := by
  revert h
  cases jsTruthy o <;> simp

theorem initA_fst_pending_guard (s : St) (g : GetFileOutcome) (now : Nat) :
    (ModeA.initWorkoutData s g now).1.pendingSlot = s.pendingSlot ∧
    (ModeA.initWorkoutData s g now).1.guardHit = s.guardHit := by
  by_cases ht : jsTruthy s.tokenSlot = true
  · by_cases hd : ∃ d sha, g = .found ⟨.parsable d, sha⟩
    · obtain ⟨d, sha, rfl⟩ := hd
      rw [initA_token_doc s now d sha ht]
      exact ⟨rfl, rfl⟩
    · have hg : g.givesDoc = false := by
        cases g with
        | notFound => rfl
        | err m => rfl
        | found r =>
          obtain ⟨rc, sha⟩ := r
          cases rc with
          | parsable d => exact absurd ⟨d, sha, rfl⟩ hd
          | malformed => rfl
      rw [initA_token_no_doc s g now ht hg, cacheFallback_fst]
      exact ⟨rfl, rfl⟩
  · rw [initA_no_token s g now (jsTruthy_not_true _ ht), cacheFallback_fst]
    exact ⟨rfl, rfl⟩

/-- Reduction of `retryPendingSaves` in the case where the retry actually
runs: non-empty well-formed queue and a truthy token. -/
theorem retryA_run (s : St) (g : GetFileOutcome) (c : CommitOutcome) (now : Nat)
    (l : List PendingSave)
    (hp : ModeA.getPendingSaves s = .ok l) (hl : l ≠ [])
    (ht : jsTruthy s.tokenSlot = true) :
    ModeA.retryPendingSaves s g c now =
      (match ModeA.saveWorkoutData s ((l.getLast?).getD ⟨emptyDoc, 0⟩).toDataVal g c now with
       | (s2, .error e) => (s2, .error e)
       | (s2, .ok result) =>
         if result.success && result.error.isNone then
           (ModeA.clearPendingSaves s2, .ok ⟨true, 1⟩)
         else (s2, .ok ⟨false, 0⟩)) := by
  simp only [ModeA.retryPendingSaves, hp, loadToken, ht, Bool.not_true, Bool.false_eq_true,
    if_false]
  rw [if_neg (by simpa using hl)]

theorem retryA_fst_props (s : St) (g : GetFileOutcome) (c : CommitOutcome) (now : Nat) :
    (ModeA.retryPendingSaves s g c now).1.guardHit = s.guardHit ∧
    queueLen (ModeA.retryPendingSaves s g c now).1 ≤ max (queueLen s) 5 := by
  cases hp2 : ModeA.getPendingSaves s with
  | error e =>
    unfold ModeA.retryPendingSaves
    rw [hp2]
    exact ⟨rfl, le_max_left _ _⟩
  | ok l =>
    by_cases hl : l = []
    · unfold ModeA.retryPendingSaves
      rw [hp2]
      subst hl
      exact ⟨rfl, le_max_left _ _⟩
    · by_cases ht : jsTruthy s.tokenSlot = true
      · rw [retryA_run s g c now l hp2 hl ht]
        have h1 := saveA_guardHit s ((l.getLast?).getD ⟨emptyDoc, 0⟩).toDataVal g c now
        have h2 := saveA_queueLen s ((l.getLast?).getD ⟨emptyDoc, 0⟩).toDataVal g c now
        rcases hsv : ModeA.saveWorkoutData s ((l.getLast?).getD ⟨emptyDoc, 0⟩).toDataVal g c now
          with ⟨s2, res⟩
        rw [hsv] at h1 h2
        cases res with
        | error e => exact ⟨h1, h2⟩
        | ok result =>
          by_cases hok : (result.success && result.error.isNone) = true
          · simp only [hok, if_true]
            exact ⟨h1, by simp [queueLen, ModeA.clearPendingSaves]⟩
          · have hb : (result.success && result.error.isNone) = false := by
              revert hok
              cases result.success && result.error.isNone <;> simp
            simp only [hb, Bool.false_eq_true, if_false]
            exact ⟨h1, h2⟩
      · simp only [ModeA.retryPendingSaves, hp2, loadToken, jsTruthy_not_true _ ht,
          Bool.not_false, reduceIte]
        rw [if_neg (by simpa using hl)]
        exact ⟨rfl, le_max_left _ _⟩

/-!  Theorems. -/

/-- Claim C8: the wire round-trip is NOT the identity on non-ASCII
strings.  The string "é" (code point 233) is UTF-8-encoded by
`commitFile`'s `btoa(unescape(encodeURIComponent(·)))` to the bytes
[195, 169], but `getFile`'s bare `atob` returns those bytes as two
Latin-1 characters "Ã©" instead of decoding them back to "é": the decode
is a naive byte-for-byte transform and is not the inverse of the encode. -/
theorem c8_decode_not_inverse_of_encode :
    wireRoundTrip [233] = [195, 169] ∧ ([195, 169] : List Nat) ≠ [233] := by
  constructor
  · rfl
  · decide

/-- Claim C2, counterexample: with a corrupt cached JSON string and an
unusable remote (no credential in mode A; failed fetch in mode B),
`initWorkoutData` throws a `JSON.parse` SyntaxError to the caller in both
variants — the fallback `JSON.parse(cached)` is outside any try/catch —
instead of degrading gracefully. -/
theorem c2_counterexample :
    (ModeA.initWorkoutData ⟨some .corrupt, none, none, none, false⟩ .notFound 0).2
      = .error .jsonParse ∧
    (ModeB.initWorkoutData ⟨some .corrupt, none, none, none, false⟩ .netErr 0).2
      = .error .jsonParse := by
  exact ⟨rfl, rfl⟩

/-- Claim C9, counterexample: with a corrupt cached JSON string,
`getSyncStatus` throws a `JSON.parse` SyntaxError in both variants instead
of treating the corrupt entry as absence. -/
theorem c9_counterexample :
    (ModeA.getSyncStatus ⟨some .corrupt, none, none, none, false⟩).2 = .error .jsonParse ∧
    (ModeB.getSyncStatus ⟨some .corrupt, none, none, none, false⟩).2 = .error .jsonParse := by
  exact ⟨rfl, rfl⟩

/-- Claim C3, code-bug evaluation: queue holding the single entry
`{data: d0, timestamp: 0}` with `d0 = {workoutHistory:[1],
workoutDurations:{}}`, token present, empty cache, remote read 404 and
commit succeeding with sha "s1".  `retryPendingSaves` reports
`{success:true, synced:1}` and clears the queue, but the document it saved
(now in the cache, and what was committed) is the queue-entry wrapper
object `{data: d0, timestamp: 0}` — not the queued WorkoutDocument `d0`
itself. -/
theorem c3_retry_saves_wrapper_not_document :
    (ModeA.retryPendingSaves
        ⟨none, some (.ok [⟨DataVal.doc [1] [], 0⟩]), some "tok", none, false⟩
        .notFound (.ok "s1") 7)
      = (⟨some (.ok ⟨.wrapped (.doc [1] []) 0, some "s1", 7⟩),
          none, some "tok", some "tok", false⟩, .ok ⟨true, 1⟩) ∧
    DataVal.wrapped (.doc [1] []) 0 ≠ DataVal.doc [1] [] := by
  constructor
  · rfl
  · decide

/-- Claim C4, counterexample: queue = `[{data: d0, timestamp: 0}]`, token
present, remote failing.  The retry does return `{success:false,
synced:0}`, but the queue is NOT left untouched: the inner
`saveWorkoutData` re-enqueued the retried entry, so the queue now has two
entries. -/
theorem c4_counterexample :
    (ModeA.retryPendingSaves
        ⟨none, some (.ok [⟨DataVal.doc [1] [], 0⟩]), some "tok", none, false⟩
        (.err "boom") (.err "boom") 1).2 = .ok ⟨false, 0⟩ ∧
    (ModeA.retryPendingSaves
        ⟨none, some (.ok [⟨DataVal.doc [1] [], 0⟩]), some "tok", none, false⟩
        (.err "boom") (.err "boom") 1).1.pendingSlot
      = some (.ok [⟨.doc [1] [], 0⟩, ⟨.wrapped (.doc [1] []) 0, 1⟩]) ∧
    some (StoredPending.ok [⟨DataVal.doc [1] [], 0⟩, ⟨.wrapped (.doc [1] []) 0, 1⟩])
      ≠ some (StoredPending.ok [⟨DataVal.doc [1] [], 0⟩]) := by
  refine ⟨rfl, rfl, by decide⟩

/-- Claim C10: whenever the coordinator invokes the remote client, a
truthy credential has already been installed via `setToken` in that same
operation, so the `GitHub token not set` guard of `getFile` / `commitFile`
is unreachable from the public operations: the `guardHit` flag is left
unchanged by `init`, `save` (both modes) and `retryPendingSaves`, for
every state and every remote outcome. -/
theorem c10_token_guard_unreachable
    (s : St) (d : DataVal) (g : GetFileOutcome) (c : CommitOutcome)
    (f : ModeB.FetchOutcome) (now : Nat) :
    (ModeA.initWorkoutData s g now).1.guardHit = s.guardHit ∧
    (ModeA.saveWorkoutData s d g c now).1.guardHit = s.guardHit ∧
    (ModeA.retryPendingSaves s g c now).1.guardHit = s.guardHit ∧
    (ModeB.initWorkoutData s f now).1.guardHit = s.guardHit ∧
    (ModeB.saveWorkoutData s d g c now).1.guardHit = s.guardHit := by
  refine ⟨(initA_fst_pending_guard s g now).2, saveA_guardHit s d g c now,
    (retryA_fst_props s g c now).1, ?_, ?_⟩
  · cases f with
    | ok body =>
      cases body with
      | parsable d2 => rfl
      | malformed => rw [initB_fail s (.ok .malformed) now rfl, cacheFallback_fst]
    | httpErr => rw [initB_fail s .httpErr now rfl, cacheFallback_fst]
    | netErr => rw [initB_fail s .netErr now rfl, cacheFallback_fst]
  · by_cases ht : jsTruthy s.tokenSlot = true
    · cases g with
      | err m => rw [saveB_getFile_err s d c now m ht]
      | notFound =>
        cases c with
        | ok newSha => rw [saveB_success s d .notFound now newSha ht rfl]
        | err m => rw [saveB_commit_err s d .notFound now m ht rfl]
      | found r =>
        cases c with
        | ok newSha => rw [saveB_success s d (.found r) now newSha ht rfl]
        | err m => rw [saveB_commit_err s d (.found r) now m ht rfl]
    · rw [saveB_no_token s d g c now (jsTruthy_not_true _ ht)]

/-- Claim C1 (local-first durability): if a mode-A `save(d)` completes
(returns a result rather than throwing), a subsequent mode-A `init` with
no credential returns `d` exactly; after any mode-B `save(d)`, a mode-B
`init` whose remote fetch fails returns `d` exactly — both saves write
`d` to the local cache before any network attempt and both inits fall
back to that cache. -/
theorem c1_local_first_durability
    (s : St) (d : DataVal) (g g2 : GetFileOutcome) (c : CommitOutcome)
    (f : ModeB.FetchOutcome) (now now2 : Nat) (r : SaveResult)
    (hA : (ModeA.saveWorkoutData s d g c now).2 = .ok r)
    (hf : f = .httpErr ∨ f = .netErr) :
    (ModeA.initWorkoutData
        { (ModeA.saveWorkoutData s d g c now).1 with tokenSlot := none } g2 now2).2
      = .ok d ∧
    (ModeB.initWorkoutData (ModeB.saveWorkoutData s d g c now).1 f now2).2 = .ok d := by
  constructor
  · obtain ⟨sh, hcache⟩ :=
      saveA_writes_cache s d g c now (saveA_ok_not_corrupt s d g c now r hA)
    rw [initA_no_token
      { (ModeA.saveWorkoutData s d g c now).1 with tokenSlot := none } g2 now2 rfl]
    rw [cacheFallback_entry
      { (ModeA.saveWorkoutData s d g c now).1 with tokenSlot := none } ⟨d, sh, now⟩ hcache]
  · have hgd : f.givesDoc = false := by rcases hf with rfl | rfl <;> rfl
    rw [initB_fail _ f now2 hgd]
    rw [cacheFallback_entry (ModeB.saveWorkoutData s d g c now).1 ⟨d, none, now⟩
      (saveB_writes_cache s d g c now)]

/-- Witness for C1 at a concrete input: an empty store, no token; the
mode-A save completes with the deferred-sync result, and both inits
return the saved document. -/
theorem c1_local_first_durability_witness :
    (ModeA.saveWorkoutData ⟨none, none, none, none, false⟩ (DataVal.doc [1] [])
        .notFound (.err "x") 3).2
      = .ok ⟨true, some "No token - saved locally, will sync when token added"⟩ ∧
    ((ModeA.initWorkoutData
        { (ModeA.saveWorkoutData ⟨none, none, none, none, false⟩ (DataVal.doc [1] [])
            .notFound (.err "x") 3).1 with tokenSlot := none } .notFound 4).2
      = .ok (DataVal.doc [1] []) ∧
     (ModeB.initWorkoutData
        (ModeB.saveWorkoutData ⟨none, none, none, none, false⟩ (DataVal.doc [1] [])
          .notFound (.err "x") 3).1 .netErr 4).2 = .ok (DataVal.doc [1] [])) :=
  ⟨rfl, c1_local_first_durability ⟨none, none, none, none, false⟩ (DataVal.doc [1] [])
    .notFound .notFound (.err "x") .netErr 3 4 ⟨true, some "No token - saved locally, will sync when token added"⟩
    rfl (Or.inr rfl)⟩

theorem givesDoc_false_of_no_doc (g : GetFileOutcome)
    (hd : ¬ ∃ d sha, g = .found ⟨.parsable d, sha⟩) : g.givesDoc = false := by
  cases g with
  | notFound => rfl
  | err m => rfl
  | found r =>
    obtain ⟨rc, sha⟩ := r
    cases rc with
    | parsable d2 => exact absurd ⟨d2, sha, rfl⟩ hd
    | malformed => rfl

/-- Claim C2, amended: provided the cached entry, when present, holds
well-formed JSON, `init` never surfaces an error in either mode: every
remote-read failure is swallowed, a present cache entry is returned when
the remote yields no document, and when no data exists anywhere the
zero-value document `{workoutHistory: [], workoutDurations: {}}` is
returned.  (A corrupt cached JSON string, by contrast, makes `init` throw
— see the counterexample.) -/
theorem c2_init_never_surfaces_remote_errors
    (s : St) (g : GetFileOutcome) (f : ModeB.FetchOutcome) (now now2 : Nat)
    (hcc : s.cache ≠ some .corrupt) :
    (∃ d, (ModeA.initWorkoutData s g now).2 = .ok d) ∧
    (∃ d, (ModeB.initWorkoutData s f now2).2 = .ok d) ∧
    (s.cache = none → (jsTruthy s.tokenSlot = false ∨ g.givesDoc = false) →
      (ModeA.initWorkoutData s g now).2 = .ok emptyDoc) ∧
    (s.cache = none → f.givesDoc = false →
      (ModeB.initWorkoutData s f now2).2 = .ok emptyDoc) ∧
    (∀ e, s.cache = some (.ok e) → g.givesDoc = false →
      (ModeA.initWorkoutData s g now).2 = .ok e.data) ∧
    (∀ e, s.cache = some (.ok e) → f.givesDoc = false →
      (ModeB.initWorkoutData s f now2).2 = .ok e.data) := by
  refine ⟨?_, ?_, ?_, ?_, ?_, ?_⟩
  · by_cases ht : jsTruthy s.tokenSlot = true
    · by_cases hd : ∃ d sha, g = .found ⟨.parsable d, sha⟩
      · obtain ⟨d, sha, rfl⟩ := hd
        rw [initA_token_doc s now d sha ht]
        exact ⟨d, rfl⟩
      · rw [initA_token_no_doc s g now ht (givesDoc_false_of_no_doc g hd)]
        exact cacheFallback_snd_ok _ hcc
    · rw [initA_no_token s g now (jsTruthy_not_true _ ht)]
      exact cacheFallback_snd_ok _ hcc
  · cases f with
    | ok body =>
      cases body with
      | parsable d =>
        rw [initB_doc s d now2]
        exact ⟨d, rfl⟩
      | malformed =>
        rw [initB_fail s (.ok .malformed) now2 rfl]
        exact cacheFallback_snd_ok _ hcc
    | httpErr =>
      rw [initB_fail s .httpErr now2 rfl]
      exact cacheFallback_snd_ok _ hcc
    | netErr =>
      rw [initB_fail s .netErr now2 rfl]
      exact cacheFallback_snd_ok _ hcc
  · intro h0 hor
    by_cases ht : jsTruthy s.tokenSlot = true
    · rcases hor with h2 | hgd
      · rw [ht] at h2
        cases h2
      · rw [initA_token_no_doc s g now ht hgd]
        rw [cacheFallback_none { s with authToken := some (s.tokenSlot.getD "") } h0]
    · rw [initA_no_token s g now (jsTruthy_not_true _ ht)]
      rw [cacheFallback_none s h0]
  · intro h0 hgd
    rw [initB_fail s f now2 hgd, cacheFallback_none s h0]
  · intro e he hgd
    by_cases ht : jsTruthy s.tokenSlot = true
    · rw [initA_token_no_doc s g now ht hgd]
      rw [cacheFallback_entry { s with authToken := some (s.tokenSlot.getD "") } e he]
    · rw [initA_no_token s g now (jsTruthy_not_true _ ht)]
      rw [cacheFallback_entry s e he]
  · intro e he hgd
    rw [initB_fail s f now2 hgd, cacheFallback_entry s e he]

/-- Witness for the amended C2 at concrete inputs: with an empty store,
no credential and an unreachable remote, both inits return the zero-value
document; with a cached entry and a remote read whose 200 response body
is unparsable, mode-A init degrades to the cached document. -/
theorem c2_init_never_surfaces_remote_errors_witness :
    ((⟨none, none, none, none, false⟩ : St).cache ≠ some .corrupt) ∧
    (ModeA.initWorkoutData ⟨none, none, none, none, false⟩ (.err "offline") 0).2
      = .ok emptyDoc ∧
    (ModeB.initWorkoutData ⟨none, none, none, none, false⟩ .netErr 0).2 = .ok emptyDoc ∧
    (ModeA.initWorkoutData
        ⟨some (.ok ⟨DataVal.doc [1] [], some "abc", 0⟩), none, some "tok", none, false⟩
        (.found ⟨.malformed, "sha"⟩) 2).2 = .ok (DataVal.doc [1] []) := by
  have h := c2_init_never_surfaces_remote_errors ⟨none, none, none, none, false⟩
    (.err "offline") .netErr 0 0 (by decide)
  have h2 := c2_init_never_surfaces_remote_errors
    ⟨some (.ok ⟨DataVal.doc [1] [], some "abc", 0⟩), none, some "tok", none, false⟩
    (.found ⟨.malformed, "sha"⟩) .netErr 2 0 (by decide)
  exact ⟨by decide, h.2.2.1 rfl (Or.inl rfl), h.2.2.2.1 rfl rfl,
    h2.2.2.2.2.1 ⟨DataVal.doc [1] [], some "abc", 0⟩ rfl rfl⟩

/-- Claim C4, amended: a retry whose retried save reaches the remote and
fails returns `{success:false, synced:0}`, but the queue is NOT left
untouched: the inner `saveWorkoutData` re-enqueues the retried queue
entry (wrapped as a document) at the tail, FIFO-trimmed to 5. -/
theorem c4_failed_retry_requeues
    (s : St) (g : GetFileOutcome) (c : CommitOutcome) (now : Nat)
    (sha0 : Option String) (l : List PendingSave)
    (hsha : ModeA.readCachedSha s = .ok sha0)
    (ht : jsTruthy s.tokenSlot = true)
    (hp : ModeA.getPendingSaves s = .ok l) (hl : l ≠ [])
    (hfail : (∃ m, g = .err m) ∨ (g.isErr = false ∧ ∃ m, c = .err m)) :
    (ModeA.retryPendingSaves s g c now).2 = .ok ⟨false, 0⟩ ∧
    (ModeA.retryPendingSaves s g c now).1.pendingSlot =
      some (.ok ((l ++ [PendingSave.mk ((l.getLast?).getD ⟨emptyDoc, 0⟩).toDataVal now]).drop
        ((l ++ [PendingSave.mk ((l.getLast?).getD ⟨emptyDoc, 0⟩).toDataVal now]).length - 5))) := by
  rw [retryA_run s g c now l hp hl ht]
  rcases hfail with ⟨m, rfl⟩ | ⟨hg, m, rfl⟩
  · rw [saveA_getFile_err s ((l.getLast?).getD ⟨emptyDoc, 0⟩).toDataVal c now sha0 l m hsha ht hp]
    exact ⟨rfl, rfl⟩
  · cases g with
    | err m2 => simp [GetFileOutcome.isErr] at hg
    | notFound =>
      rw [saveA_commit_err s ((l.getLast?).getD ⟨emptyDoc, 0⟩).toDataVal .notFound now
        sha0 l m hsha ht hp rfl]
      exact ⟨rfl, rfl⟩
    | found r =>
      rw [saveA_commit_err s ((l.getLast?).getD ⟨emptyDoc, 0⟩).toDataVal (.found r) now
        sha0 l m hsha ht hp rfl]
      exact ⟨rfl, rfl⟩

/-- Witness for the amended C4 at a concrete input: one queued entry,
token present, remote failing — the retry reports failure and the queue
has gained the re-enqueued wrapper entry. -/
theorem c4_failed_retry_requeues_witness :
    (ModeA.retryPendingSaves
        ⟨none, some (.ok [⟨DataVal.doc [2] [], 0⟩]), some "tok", none, false⟩
        (.err "down") (.ok "s2") 9).2 = .ok ⟨false, 0⟩ ∧
    (ModeA.retryPendingSaves
        ⟨none, some (.ok [⟨DataVal.doc [2] [], 0⟩]), some "tok", none, false⟩
        (.err "down") (.ok "s2") 9).1.pendingSlot
      = some (.ok [⟨DataVal.doc [2] [], 0⟩, ⟨.wrapped (.doc [2] []) 0, 9⟩]) := by
  have h := c4_failed_retry_requeues
    ⟨none, some (.ok [⟨DataVal.doc [2] [], 0⟩]), some "tok", none, false⟩
    (.err "down") (.ok "s2") 9 none [⟨DataVal.doc [2] [], 0⟩]
    rfl (by decide) rfl (by decide) (Or.inl ⟨"down", rfl⟩)
  exact ⟨h.1, h.2⟩

/-- Claim C5 (success subsumes backlog): any mode-A `save` whose remote
write succeeds clears the whole pending queue (the slot is removed), and
a `retryPendingSaves` whose retried save truly succeeds reports
`{success:true, synced:1}` and likewise leaves the queue empty — never
merely one entry shorter. -/
theorem c5_success_subsumes_backlog
    (s : St) (data : DataVal) (g : GetFileOutcome)
    (now : Nat) (sha0 : Option String) (newSha : String) (l : List PendingSave)
    (hsha : ModeA.readCachedSha s = .ok sha0)
    (ht : jsTruthy s.tokenSlot = true)
    (hg : g.isErr = false)
    (hp : ModeA.getPendingSaves s = .ok l) (hl : l ≠ []) :
    ((ModeA.saveWorkoutData s data g (.ok newSha) now).1.pendingSlot = none ∧
     (ModeA.saveWorkoutData s data g (.ok newSha) now).2 = .ok ⟨true, none⟩) ∧
    ((ModeA.retryPendingSaves s g (.ok newSha) now).1.pendingSlot = none ∧
     (ModeA.retryPendingSaves s g (.ok newSha) now).2 = .ok ⟨true, 1⟩) := by
  constructor
  · rw [saveA_success s data g now sha0 newSha hsha ht hg]
    exact ⟨rfl, rfl⟩
  · rw [retryA_run s g (.ok newSha) now l hp hl ht]
    rw [saveA_success s ((l.getLast?).getD ⟨emptyDoc, 0⟩).toDataVal g now sha0 newSha hsha ht hg]
    exact ⟨rfl, rfl⟩

/-- Witness for C5 at a concrete input: three queued entries, token
present, remote write succeeding — both a fresh save and a retry leave
the queue entirely empty. -/
theorem c5_success_subsumes_backlog_witness :
    ((ModeA.saveWorkoutData
        ⟨none, some (.ok [⟨DataVal.doc [1] [], 1⟩, ⟨DataVal.doc [2] [], 2⟩,
          ⟨DataVal.doc [3] [], 3⟩]), some "tok", none, false⟩
        (DataVal.doc [9] []) .notFound (.ok "sha") 4).1.pendingSlot = none ∧
     (ModeA.saveWorkoutData
        ⟨none, some (.ok [⟨DataVal.doc [1] [], 1⟩, ⟨DataVal.doc [2] [], 2⟩,
          ⟨DataVal.doc [3] [], 3⟩]), some "tok", none, false⟩
        (DataVal.doc [9] []) .notFound (.ok "sha") 4).2 = .ok ⟨true, none⟩) ∧
    ((ModeA.retryPendingSaves
        ⟨none, some (.ok [⟨DataVal.doc [1] [], 1⟩, ⟨DataVal.doc [2] [], 2⟩,
          ⟨DataVal.doc [3] [], 3⟩]), some "tok", none, false⟩
        .notFound (.ok "sha") 4).1.pendingSlot = none ∧
     (ModeA.retryPendingSaves
        ⟨none, some (.ok [⟨DataVal.doc [1] [], 1⟩, ⟨DataVal.doc [2] [], 2⟩,
          ⟨DataVal.doc [3] [], 3⟩]), some "tok", none, false⟩
        .notFound (.ok "sha") 4).2 = .ok ⟨true, 1⟩) :=
  c5_success_subsumes_backlog
    ⟨none, some (.ok [⟨DataVal.doc [1] [], 1⟩, ⟨DataVal.doc [2] [], 2⟩,
      ⟨DataVal.doc [3] [], 3⟩]), some "tok", none, false⟩
    (DataVal.doc [9] []) .notFound 4 none "sha"
    [⟨DataVal.doc [1] [], 1⟩, ⟨DataVal.doc [2] [], 2⟩, ⟨DataVal.doc [3] [], 3⟩]
    rfl (by decide) rfl rfl (by decide)

/-- Claim C6 (queue bound): every operation preserves the 5-entry bound
on the pending queue, `addPendingSave` enforces it unconditionally, and
enqueueing 7 documents via failed mode-A saves from an empty store leaves
exactly the 5 most recently enqueued documents in insertion order (the 2
oldest evicted). -/
theorem c6_queue_bound
    (s : St) (data : DataVal) (g g2 : GetFileOutcome) (c : CommitOutcome) (now : Nat)
    (d1 d2 d3 d4 d5 d6 d7 : DataVal) (n1 n2 n3 n4 n5 n6 n7 : Nat)
    (h : queueLen s ≤ 5) :
    queueLen (ModeA.saveWorkoutData s data g c now).1 ≤ 5 ∧
    queueLen (ModeA.retryPendingSaves s g c now).1 ≤ 5 ∧
    queueLen (ModeA.initWorkoutData s g now).1 ≤ 5 ∧
    (∀ s2, ModeA.addPendingSave s data now = .ok s2 → queueLen s2 ≤ 5) ∧
    (let s0 : St := ⟨none, none, none, none, false⟩
     let t1 := (ModeA.saveWorkoutData s0 d1 g2 c n1).1
     let t2 := (ModeA.saveWorkoutData t1 d2 g2 c n2).1
     let t3 := (ModeA.saveWorkoutData t2 d3 g2 c n3).1
     let t4 := (ModeA.saveWorkoutData t3 d4 g2 c n4).1
     let t5 := (ModeA.saveWorkoutData t4 d5 g2 c n5).1
     let t6 := (ModeA.saveWorkoutData t5 d6 g2 c n6).1
     let t7 := (ModeA.saveWorkoutData t6 d7 g2 c n7).1
     t7.pendingSlot = some (.ok [⟨d3, n3⟩, ⟨d4, n4⟩, ⟨d5, n5⟩, ⟨d6, n6⟩, ⟨d7, n7⟩])) := by
  refine ⟨le_trans (saveA_queueLen s data g c now) (max_le h le_rfl),
    le_trans (retryA_fst_props s g c now).2 (max_le h le_rfl),
    ?_, ?_, ?_⟩
  · rw [queueLen_congr _ s (initA_fst_pending_guard s g now).1]
    exact h
  · intro s2 hs2
    unfold ModeA.addPendingSave at hs2
    cases hp2 : ModeA.getPendingSaves s with
    | error e =>
      rw [hp2] at hs2
      simp at hs2
    | ok l =>
      rw [hp2] at hs2
      simp only at hs2
      injection hs2 with hs2
      subst hs2
      simpa [queueLen] using trim_len_le l (PendingSave.mk data now)
  · simp [ModeA.saveWorkoutData, ModeA.readCachedSha, ModeA.addPendingSave,
      ModeA.getPendingSaves, loadToken, jsTruthy, List.drop]

/-- Witness for C6 at a concrete input: an empty store, then seven failed
(no-token) saves; the queue holds exactly documents 3–7 in insertion
order. -/
theorem c6_queue_bound_witness :
    queueLen (⟨none, none, none, none, false⟩ : St) ≤ 5 ∧
    (let s0 : St := ⟨none, none, none, none, false⟩
     let t1 := (ModeA.saveWorkoutData s0 (.doc [1] []) .notFound (.ok "s") 1).1
     let t2 := (ModeA.saveWorkoutData t1 (.doc [2] []) .notFound (.ok "s") 2).1
     let t3 := (ModeA.saveWorkoutData t2 (.doc [3] []) .notFound (.ok "s") 3).1
     let t4 := (ModeA.saveWorkoutData t3 (.doc [4] []) .notFound (.ok "s") 4).1
     let t5 := (ModeA.saveWorkoutData t4 (.doc [5] []) .notFound (.ok "s") 5).1
     let t6 := (ModeA.saveWorkoutData t5 (.doc [6] []) .notFound (.ok "s") 6).1
     let t7 := (ModeA.saveWorkoutData t6 (.doc [7] []) .notFound (.ok "s") 7).1
     t7.pendingSlot = some (.ok [⟨.doc [3] [], 3⟩, ⟨.doc [4] [], 4⟩, ⟨.doc [5] [], 5⟩,
       ⟨.doc [6] [], 6⟩, ⟨.doc [7] [], 7⟩])) :=
  ⟨by decide,
   (c6_queue_bound ⟨none, none, none, none, false⟩ emptyDoc .notFound .notFound (.ok "s") 0
      (.doc [1] []) (.doc [2] []) (.doc [3] []) (.doc [4] []) (.doc [5] []) (.doc [6] [])
      (.doc [7] []) 1 2 3 4 5 6 7 (by decide)).2.2.2.2⟩

/-- Claim C7 (precondition race): when the remote write is rejected (the
commit throws, e.g. on a stale revision token) after a successful sha
re-read, mode A reports `success:true` with the advisory message and
appends the document to the pending queue, mode B reports `success:false`
with the error message, and in both modes the cache written before the
network attempt still holds the new document — it is never rolled back. -/
theorem c7_precondition_race
    (s : St) (d : DataVal) (g : GetFileOutcome) (now : Nat)
    (sha0 : Option String) (l : List PendingSave) (m : String)
    (hsha : ModeA.readCachedSha s = .ok sha0)
    (ht : jsTruthy s.tokenSlot = true)
    (hp : ModeA.getPendingSaves s = .ok l)
    (hg : g.isErr = false) :
    ((ModeA.saveWorkoutData s d g (.err m) now).2
        = .ok ⟨true, some ("Saved locally but sync failed: " ++ m)⟩ ∧
     (ModeA.saveWorkoutData s d g (.err m) now).1.pendingSlot
        = some (.ok ((l ++ [PendingSave.mk d now]).drop
            ((l ++ [PendingSave.mk d now]).length - 5))) ∧
     (ModeA.saveWorkoutData s d g (.err m) now).1.cache = some (.ok ⟨d, sha0, now⟩)) ∧
    ((ModeB.saveWorkoutData s d g (.err m) now).2
        = .ok ⟨false, some ("Save failed: " ++ m ++ ". Data cached locally.")⟩ ∧
     (ModeB.saveWorkoutData s d g (.err m) now).1.cache = some (.ok ⟨d, none, now⟩)) := by
  constructor
  · cases g with
    | err m2 => simp [GetFileOutcome.isErr] at hg
    | notFound =>
      rw [saveA_commit_err s d .notFound now sha0 l m hsha ht hp rfl]
      exact ⟨rfl, rfl, rfl⟩
    | found r =>
      rw [saveA_commit_err s d (.found r) now sha0 l m hsha ht hp rfl]
      exact ⟨rfl, rfl, rfl⟩
  · cases g with
    | err m2 => simp [GetFileOutcome.isErr] at hg
    | notFound =>
      rw [saveB_commit_err s d .notFound now m ht rfl]
      exact ⟨rfl, rfl⟩
    | found r =>
      rw [saveB_commit_err s d (.found r) now m ht rfl]
      exact ⟨rfl, rfl⟩

/-- Witness for C7 at a concrete input: cached sha "old", token present,
re-read finds sha "cur", commit rejected with a stale-token API error. -/
theorem c7_precondition_race_witness :
    ((ModeA.saveWorkoutData
        ⟨some (.ok ⟨DataVal.doc [] [], some "old", 0⟩), none, some "tok", none, false⟩
        (DataVal.doc [5] []) (.found ⟨.parsable (.doc [] []), "cur"⟩)
        (.err "GitHub API error: sha mismatch") 8).2
      = .ok ⟨true, some ("Saved locally but sync failed: GitHub API error: sha mismatch")⟩ ∧
     (ModeA.saveWorkoutData
        ⟨some (.ok ⟨DataVal.doc [] [], some "old", 0⟩), none, some "tok", none, false⟩
        (DataVal.doc [5] []) (.found ⟨.parsable (.doc [] []), "cur"⟩)
        (.err "GitHub API error: sha mismatch") 8).1.cache
      = some (.ok ⟨DataVal.doc [5] [], some "old", 8⟩)) ∧
    ((ModeB.saveWorkoutData
        ⟨some (.ok ⟨DataVal.doc [] [], some "old", 0⟩), none, some "tok", none, false⟩
        (DataVal.doc [5] []) (.found ⟨.parsable (.doc [] []), "cur"⟩)
        (.err "GitHub API error: sha mismatch") 8).2
      = .ok ⟨false, some ("Save failed: GitHub API error: sha mismatch. Data cached locally.")⟩ ∧
     (ModeB.saveWorkoutData
        ⟨some (.ok ⟨DataVal.doc [] [], some "old", 0⟩), none, some "tok", none, false⟩
        (DataVal.doc [5] []) (.found ⟨.parsable (.doc [] []), "cur"⟩)
        (.err "GitHub API error: sha mismatch") 8).1.cache
      = some (.ok ⟨DataVal.doc [5] [], none, 8⟩)) := by
  have h := c7_precondition_race
    ⟨some (.ok ⟨DataVal.doc [] [], some "old", 0⟩), none, some "tok", none, false⟩
    (DataVal.doc [5] []) (.found ⟨.parsable (.doc [] []), "cur"⟩) 8 (some "old") []
    "GitHub API error: sha mismatch" rfl (by decide) rfl rfl
  exact ⟨⟨h.1.1, h.1.2.2⟩, h.2⟩

/-- Claim C9, amended: on any state whose stored JSON strings are
well-formed, `getSyncStatus` returns a status without throwing and
without mutating the state, treating a missing cache or queue as absence
(`lastSync` null, zero pending); a corrupt stored string, by contrast,
makes it throw — see the counterexample. -/
theorem c9_getSyncStatus_total_on_wellformed
    (s : St)
    (hcc : s.cache ≠ some .corrupt) (hps : s.pendingSlot ≠ some .corrupt) :
    (∃ st, ModeA.getSyncStatus s = (s, .ok st) ∧
      (s.pendingSlot = none → st.hasPending = false ∧ st.pendingCount = 0) ∧
      (s.cache = none → st.lastSync = none)) ∧
    (∃ st, ModeB.getSyncStatus s = (s, .ok st) ∧
      st.hasToken = jsTruthy (loadToken s) ∧
      (s.cache = none → st.lastSync = none)) := by
  obtain ⟨cache, pnd, tok, auth, gd⟩ := s
  rcases pnd with _ | pl
  · rcases cache with _ | cl
    · exact ⟨⟨_, rfl, fun _ => ⟨rfl, rfl⟩, fun _ => rfl⟩, ⟨_, rfl, rfl, fun _ => rfl⟩⟩
    · rcases cl with e | _
      · exact ⟨⟨_, rfl, fun _ => ⟨rfl, rfl⟩, fun h => Option.noConfusion h⟩,
          ⟨_, rfl, rfl, fun h => Option.noConfusion h⟩⟩
      · exact absurd rfl hcc
  · rcases pl with l | _
    · rcases cache with _ | cl
      · exact ⟨⟨_, rfl, fun h => Option.noConfusion h, fun _ => rfl⟩,
          ⟨_, rfl, rfl, fun _ => rfl⟩⟩
      · rcases cl with e | _
        · exact ⟨⟨_, rfl, fun h => Option.noConfusion h, fun h => Option.noConfusion h⟩,
            ⟨_, rfl, rfl, fun h => Option.noConfusion h⟩⟩
        · exact absurd rfl hcc
    · exact absurd rfl hps

/-- Witness for the amended C9 at a concrete input: empty local store —
both variants report absence without throwing or mutating anything. -/
theorem c9_getSyncStatus_total_on_wellformed_witness :
    ModeA.getSyncStatus ⟨none, none, none, none, false⟩
      = (⟨none, none, none, none, false⟩, .ok ⟨false, 0, none⟩) ∧
    ModeB.getSyncStatus ⟨none, none, none, none, false⟩
      = (⟨none, none, none, none, false⟩, .ok ⟨false, none⟩) := by
  have h := c9_getSyncStatus_total_on_wellformed ⟨none, none, none, none, false⟩
    (by decide) (by decide)
  obtain ⟨⟨stA, hA, hA1, hA2⟩, ⟨stB, hB, hB1, hB2⟩⟩ := h
  refine ⟨?_, ?_⟩
  · rw [hA]
    obtain ⟨h1, h2⟩ := hA1 rfl
    have h3 := hA2 rfl
    cases stA
    simp_all
  · rw [hB]
    have h3 := hB2 rfl
    cases stB
    simp_all [loadToken, jsTruthy]
